import Mathlib

/-!
Verification development for the juniper repository.

Part 1 shallowly embeds `src/juniper_codegen/src/graphql_interface/derive.rs`:
the expansion pipeline turning a named-field struct description into a
validated GraphQL interface definition, with the diagnostic accumulation and
the dirty-flag checkpoints (`proc_macro_error::abort_if_dirty`) made explicit.

Part 2 shallowly embeds `src/juniper_rocket/src/lib.rs`: the HTTP adapter
(`GraphQLRequest::execute`, `GraphQLBatchResponse::is_ok`, `from_data`).
-/

/-- Abstract source location (a span). -/
abbrev Span := Nat

/-- Source-level identifier together with its span (model of `syn::Ident`). -/
structure Ident where
  name : String
  span : Span
  deriving DecidableEq

/-- Kernel-computable model of `str::starts_with`. -/
def strStartsWith (s p : String) : Bool := p.toList.isPrefixOf s.toList

/-- Strips raw-identifier escaping (`syn::ext::IdentExt::unraw`). -/
def Ident.unraw (i : Ident) : String :=
  if strStartsWith i.name "r#" then String.mk (i.name.toList.drop 2) else i.name

/-- An attribute value together with the span of its key token
(model of `util::span_container::SpanContainer`). -/
structure SpanContainer (α : Type) where
  spanIdent : Span
  inner : α
  deriving DecidableEq

/-- Opaque model of a source type reference (`syn::Type`), carrying just
enough structure to express lifetime anonymization. -/
inductive Ty where
  | unit
  | path (name : String)
  | ref (lifetime : Option String) (inner : Ty)
  deriving DecidableEq

/-- Replaces every lifetime with the anonymous one
(`common::parse::TypeExt::lifetimes_anonymized`). -/
def Ty.lifetimes_anonymized : Ty → Ty
  | .unit => .unit
  | .path n => .path n
  | .ref _ t => .ref none t.lifetimes_anonymized

/-- Modelled from the spec: `util::RenameRule` (outside `src/`) is an
enumerated policy (camelCase or identity) mapping a declared identifier to an
exposed name; a pure function. -/
inductive RenameRule where
  | camelCase
  | identity
  deriving DecidableEq

/-- Helper for the camelCase conversion: drops underscores and uppercases the
character following a dropped underscore. -/
def camelWord : Bool → List Char → List Char
  | _, [] => []
  | up, c :: cs =>
    if c = '_' then camelWord true cs
    else (if up then c.toUpper else c) :: camelWord false cs

/-- Modelled from the spec: applying a renaming policy to a declared name. -/
def RenameRule.apply : RenameRule → String → String
  | .camelCase, s => String.mk (camelWord false s.toList)
  | .identity, s => s

/-- Modelled from the spec: scalar resolution (`common::scalar::Type::parse`
is outside `src/`): an explicitly supplied type reference, or the ambient
default scalar representation parameterized by the struct generics. -/
inductive ScalarType where
  | explicitType (t : Ty)
  | implicitGeneric (generics : List String)
  deriving DecidableEq

/-- Modelled from the spec: dispatch of `common::scalar::Type::parse` on
whether an explicit `scalar` option was supplied. -/
def scalarTypeParse (explicitScalar : Option Ty) (generics : List String) : ScalarType :=
  match explicitScalar with
  | some t => .explicitType t
  | none => .implicitGeneric generics

/-- Modelled from the spec: a field-argument record
(`common::field::MethodArgument`, outside `src/`); the only capability used
by this pipeline is that an argument may declare a context type
(`MethodArgument::context_ty`). -/
structure MethodArgument where
  context_ty : Option Ty
  deriving DecidableEq

/-- One retained interface field (`common::field::Definition`), with the
components assigned in `parse_field`. -/
structure FieldDefinition where
  name : String
  ty : Ty
  description : Option String
  deprecated : Option (Option String)
  ident : Ident
  arguments : Option (List MethodArgument)
  has_receiver : Bool
  is_async : Bool
  deriving DecidableEq

/-- A diagnostic kind: the reserved double-underscore naming violation
(`GraphQLScope::no_double_underscore`) or a custom message
(`GraphQLScope::emit_custom` and emitted parse errors). -/
inductive DiagKind where
  | noDoubleUnderscore
  | custom (msg : String)
  deriving DecidableEq

/-- A recorded diagnostic: a source span plus a kind. -/
structure Diag where
  span : Span
  kind : DiagKind
  deriving DecidableEq

/-- Field-level attribute options (`common::field::Attr`), as produced by the
external attribute-parsing service. -/
structure FieldAttr where
  name : Option (SpanContainer String)
  description : Option (SpanContainer String)
  deprecated : Option (SpanContainer (Option String))
  ignore : Option Span
  deriving DecidableEq

deriving instance DecidableEq for Except

/-- One source struct field: optional identifier (tuple-style fields have
none), its own span, declared type, and the result of parsing its attribute
bundle (`field::Attr::from_attrs` may fail, yielding a diagnostic to emit). -/
structure SourceField where
  ident : Option Ident
  span : Span
  ty : Ty
  attrs : Except Diag FieldAttr
  deriving DecidableEq

/-- Struct-level attribute options (`graphql_interface::Attr`), as produced
by the external attribute-parsing service. -/
structure Attr where
  name : Option (SpanContainer String)
  description : Option (SpanContainer String)
  context : Option (SpanContainer Ty)
  scalar : Option (SpanContainer Ty)
  implemented_for : List (SpanContainer Ty)
  rename_fields : Option (SpanContainer RenameRule)
  enum : Option (SpanContainer Ident)
  is_internal : Bool
  deriving DecidableEq

/-- The input to the derivation: a named-field struct together with its
already-parsed struct-level attribute bundle (the spec's SourceStruct). -/
structure SourceStruct where
  ident : Ident
  span : Span
  vis : String
  generics : List String
  fields : List SourceField
  attr : Attr
  deriving DecidableEq

/-- The produced interface definition (`graphql_interface::Definition`), with
the fields assigned at the end of `expand`. -/
structure Definition where
  generics : List String
  vis : String
  enum_ident : String
  enum_alias_ident : String
  name : String
  description : Option String
  context : Ty
  scalar : ScalarType
  fields : List FieldDefinition
  implemented_for : List Ty
  deriving DecidableEq

/-- Modelled from the spec: `common::field::all_different` (outside `src/`)
checks that retained field names are pairwise distinct. -/
def all_different (fields : List FieldDefinition) : Bool :=
  decide (fields.map FieldDefinition.name).Nodup

/-- The exposed name of a field: the explicit `name` option if present, else
the renaming rule applied to the de-escaped identifier. -/
def exposedFieldName (attr : FieldAttr) (fid : Ident) (rule : RenameRule) : String :=
  (attr.name.map SpanContainer.inner).getD (rule.apply fid.unraw)

/-- The anchor of a per-field naming diagnostic: the explicit name option key
span if given, else the field identifier span. -/
def fieldAnchor (attr : FieldAttr) (fid : Ident) : Span :=
  (attr.name.map SpanContainer.spanIdent).getD fid.span

/-- Parses a field definition from a source struct field (`parse_field`):
returns the retained field (or none) together with the diagnostics emitted
while processing this field. -/
def parse_field (f : SourceField) (rule : RenameRule) :
    Option FieldDefinition × List Diag :=
  match f.ident with
  | none => (none, [⟨f.span, .custom "expected named struct field"⟩])
  | some fid =>
    match f.attrs with
    | .error d => (none, [d])
    | .ok attr =>
      if attr.ignore.isSome then (none, [])
      else
        let name := exposedFieldName attr fid rule
        if strStartsWith name "__" then
          (none, [⟨fieldAnchor attr fid, .noDoubleUnderscore⟩])
        else
          (some { name := name
                  ty := f.ty.lifetimes_anonymized
                  description := attr.description.map SpanContainer.inner
                  deprecated := attr.deprecated.map SpanContainer.inner
                  ident := fid
                  arguments := none
                  has_receiver := false
                  is_async := false }, [])

/-- The resolved exposed interface name: explicit `name` option if present,
else the struct identifier with raw escaping stripped. -/
def resolvedName (s : SourceStruct) : String :=
  (s.attr.name.map SpanContainer.inner).getD s.ident.unraw

/-- The anchor of the struct-level naming diagnostic: the explicit name
option key span if given, else the struct identifier span. -/
def structNameAnchor (s : SourceStruct) : Span :=
  (s.attr.name.map SpanContainer.spanIdent).getD s.ident.span

/-- The diagnostics of the struct-level reserved-prefix check: one
`no_double_underscore` unless `is_internal` is set. -/
def structNameDiags (s : SourceStruct) : List Diag :=
  if !s.attr.is_internal && strStartsWith (resolvedName s) "__" then
    [⟨structNameAnchor s, .noDoubleUnderscore⟩]
  else []

/-- The renaming rule in effect: the `rename_fields` option, defaulting to
camelCase. -/
def renamingOf (s : SourceStruct) : RenameRule :=
  (s.attr.rename_fields.map SpanContainer.inner).getD .camelCase

/-- The per-field parse results, in declaration order. -/
def fieldResults (s : SourceStruct) : List (Option FieldDefinition × List Diag) :=
  s.fields.map (fun f => parse_field f (renamingOf s))

/-- The retained fields (the `filter_map` over `parse_field`). -/
def retainedFields (s : SourceStruct) : List FieldDefinition :=
  (fieldResults s).filterMap Prod.fst

/-- All diagnostics emitted during field extraction, in order. -/
def fieldDiags (s : SourceStruct) : List Diag :=
  ((fieldResults s).map Prod.snd).flatten

/-- The post-pass diagnostics: emptiness check, then pairwise-distinct-names
check, both anchored at the struct span. -/
def postPassDiags (s : SourceStruct) : List Diag :=
  (if (retainedFields s).isEmpty then
    [⟨s.span, .custom "must have at least one field"⟩]
  else []) ++
  (if all_different (retainedFields s) then []
  else [⟨s.span, .custom "must have a different name for each field"⟩])

/-- The first context type declared by a field argument, scanning fields in
order. -/
def firstArgContext (fields : List FieldDefinition) : Option Ty :=
  fields.findSome? (fun f =>
    f.arguments.bind (fun args => args.findSome? MethodArgument.context_ty))

/-- The resolved context type: explicit `context` option, else first field
argument context, else the unit type. -/
def contextOf (s : SourceStruct) : Ty :=
  ((s.attr.context.map SpanContainer.inner).orElse
    (fun _ => firstArgContext (retainedFields s))).getD .unit

/-- The public-facing enum alias identifier: the `enum` option verbatim, else
the struct identifier suffixed with `Value`. -/
def enumAliasIdentOf (s : SourceStruct) : String :=
  (s.attr.enum.map (fun c => c.inner.name)).getD (s.ident.name ++ "Value")

/-- The internal enum identifier: the struct identifier suffixed with
`ValueEnum` when the `enum` option is absent, else the option value suffixed
with `Enum`. -/
def enumIdentOf (s : SourceStruct) : String :=
  match s.attr.enum with
  | none => s.ident.name ++ "ValueEnum"
  | some c => c.inner.name ++ "Enum"

/-- The definition record built at the end of a successful expansion
(the `Ok(Definition { .. })` value of `expand`). -/
def expandDef (s : SourceStruct) : Definition :=
  { generics := s.generics
    vis := s.vis
    enum_ident := enumIdentOf s
    enum_alias_ident := enumAliasIdentOf s
    name := resolvedName s
    description := s.attr.description.map SpanContainer.inner
    context := contextOf s
    scalar := scalarTypeParse (s.attr.scalar.map SpanContainer.inner) s.generics
    fields := retainedFields s
    implemented_for := s.attr.implemented_for.map SpanContainer.inner }

/-- The expansion pipeline (`expand`): the three `abort_if_dirty` checkpoints
become early returns carrying every diagnostic accumulated so far. -/
def expand (s : SourceStruct) : Except (List Diag) Definition :=
  if structNameDiags s ≠ [] then .error (structNameDiags s)
  else if fieldDiags s ≠ [] then .error (structNameDiags s ++ fieldDiags s)
  else if postPassDiags s ≠ [] then
    .error (structNameDiags s ++ fieldDiags s ++ postPassDiags s)
  else .ok (expandDef s)

/-- A JSON value shape, sufficient to state object-versus-array facts about
serialized response bodies. -/
inductive Json where
  | obj (fields : List (String × Json))
  | arr (elems : List Json)
  | str (s : String)
  | null

/-- Whether a JSON value is a single object. -/
def Json.isObj : Json → Bool
  | .obj _ => true
  | _ => false

/-- Whether a JSON value is an array. -/
def Json.isArr : Json → Bool
  | .arr _ => true
  | _ => false

/-- An incoming batch request (`GraphQLBatchRequest`): a single operation or
a batch of operations; `Req` is the opaque single-operation request type
(`juniper::http::GraphQLRequest`). -/
inductive GraphQLBatchRequest (Req : Type) where
  | single (r : Req)
  | batch (rs : List Req)
  deriving DecidableEq

/-- The outgoing batch response (`GraphQLBatchResponse`); `Resp` is the
opaque single-operation response type (`juniper::http::GraphQLResponse`). -/
inductive GraphQLBatchResponse (Resp : Type) where
  | single (r : Resp)
  | batch (rs : List Resp)
  deriving DecidableEq

/-- Executes each operation against the opaque execution service `exec`
(`GraphQLBatchRequest::execute`). -/
def GraphQLBatchRequest.execute {Req Resp : Type} (exec : Req → Resp) :
    GraphQLBatchRequest Req → GraphQLBatchResponse Resp
  | .single r => .single (exec r)
  | .batch rs => .batch (rs.map exec)

/-- Whether the whole batch response is successful
(`GraphQLBatchResponse::is_ok`); `isOk` is the opaque per-response success
test (`juniper::http::GraphQLResponse::is_ok`). -/
def GraphQLBatchResponse.is_ok {Resp : Type} (isOk : Resp → Bool) :
    GraphQLBatchResponse Resp → Bool
  | .single r => isOk r
  | .batch rs => rs.foldl (fun ok r => ok && isOk r) true

/-- Serialization of a batch response (serde untagged): a single response
serializes as itself, a batch as the array of its members; `respToJson` is
the opaque serialization of one response. -/
def GraphQLBatchResponse.toJson {Resp : Type} (respToJson : Resp → Json) :
    GraphQLBatchResponse Resp → Json
  | .single r => respToJson r
  | .batch rs => .arr (rs.map respToJson)

/-- The rocket-level request wrapper (`juniper_rocket::GraphQLRequest`). -/
structure GraphQLRequest (Req : Type) where
  inner : GraphQLBatchRequest Req
  deriving DecidableEq

/-- The rocket-level response (`juniper_rocket::GraphQLResponse`): a status
code and the serialized body. -/
structure GraphQLResponse where
  status : Nat
  body : Json

/-- Executes an incoming GraphQL query (`GraphQLRequest::execute`): status
200 when the batch response is ok, 400 otherwise, body serialized. -/
def GraphQLRequest.execute {Req Resp : Type} (exec : Req → Resp)
    (isOk : Resp → Bool) (respToJson : Resp → Json) (r : GraphQLRequest Req) :
    GraphQLResponse :=
  let response := r.inner.execute exec
  let status := if response.is_ok isOk then 200 else 400
  ⟨status, response.toJson respToJson⟩

/-- The outcome of rocket data guards (`rocket::Outcome`). -/
inductive Outcome (α : Type) where
  | success (a : α)
  | failure (status : Nat) (msg : String)
  | forward
  deriving DecidableEq

/-- The body read limit (`BODY_LIMIT`). -/
def BODY_LIMIT : Nat := 1024 * 100

/-- The data guard (`FromDataSimple::from_data` for `GraphQLRequest`): a
non-JSON content type is forwarded; a failing body read yields status 500;
otherwise at most `BODY_LIMIT` characters of the body are read and handed to
the external JSON decoder `parse`, whose failure yields status 400. -/
def GraphQLRequest.from_data {Req : Type}
    (parse : List Char → Except String (GraphQLBatchRequest Req))
    (contentTypeIsJson : Bool) (data : Except String (List Char)) :
    Outcome (GraphQLRequest Req) :=
  if !contentTypeIsJson then .forward
  else
    match data with
    | .error e => .failure 500 e
    | .ok body =>
      match parse (body.take BODY_LIMIT) with
      | .ok value => .success ⟨value⟩
      | .error failureMsg => .failure 400 failureMsg

/-- The claim-side reading of operation success: every executed operation of
the request succeeded (the spec wording for the status contract). -/
def specAllSucceeded {Req Resp : Type} (exec : Req → Resp) (isOk : Resp → Bool) :
    GraphQLBatchRequest Req → Bool
  | .single r => isOk (exec r)
  | .batch rs => rs.all (fun r => isOk (exec r))

/-- A defaulted struct-level attribute bundle. -/
def attr0 : Attr :=
  { name := none, description := none, context := none, scalar := none
    implemented_for := [], rename_fields := none, enum := none
    is_internal := false }

/-- A defaulted field-level attribute bundle. -/
def fattr0 : FieldAttr :=
  { name := none, description := none, deprecated := none, ignore := none }

/-- A concrete field `id: String` with no attributes. -/
def fId : SourceField :=
  { ident := some ⟨"id", 2⟩, span := 3, ty := .path "String", attrs := .ok fattr0 }

/-- A concrete field `name: String` with no attributes. -/
def fName : SourceField :=
  { ident := some ⟨"name", 4⟩, span := 5, ty := .path "String", attrs := .ok fattr0 }

/-- A concrete field carrying the explicit exposed name `__x`. -/
def fDunder : SourceField :=
  { ident := some ⟨"x", 6⟩, span := 7, ty := .path "T"
    attrs := .ok { fattr0 with name := some ⟨8, "__x"⟩ } }

/-- A concrete struct `Character` with fields `id` and `name`, no options. -/
def sA : SourceStruct :=
  { ident := ⟨"Character", 0⟩, span := 1, vis := "pub", generics := []
    fields := [fId, fName], attr := attr0 }

/-- A concrete struct with one reserved-prefix field and one good field. -/
def sReservedField : SourceStruct :=
  { sA with fields := [fDunder, fId] }

/-- A concrete struct named `__Foo` whose single retained field would also
violate the reserved prefix. -/
def sReservedName : SourceStruct :=
  { sA with ident := ⟨"__Foo", 0⟩, fields := [fDunder] }

/-- A concrete internal struct with an explicit reserved exposed name. -/
def sInternalNamed : SourceStruct :=
  { sA with attr := { attr0 with name := some ⟨9, "__X"⟩, is_internal := true } }

/-- A concrete struct named `__Empty` with no fields. -/
def sReservedEmpty : SourceStruct :=
  { sA with ident := ⟨"__Empty", 0⟩, fields := [] }

/-- A concrete struct `Character` with no fields. -/
def sEmpty : SourceStruct := { sA with fields := [] }

/-- A concrete struct with two fields resolving to the same exposed name. -/
def sDup : SourceStruct :=
  { sA with
    fields := [fId, { fName with attrs := .ok { fattr0 with name := some ⟨10, "id"⟩ } }] }

/-- A concrete internal struct with a reserved-prefix field and a good
field. -/
def sInternalReservedField : SourceStruct :=
  { sA with fields := [fDunder, fId], attr := { attr0 with is_internal := true } }

/-- A concrete struct with an explicit context option. -/
def sCtx : SourceStruct :=
  { sA with attr := { attr0 with context := some ⟨11, .path "Ctx"⟩ } }

/-- A concrete struct with the explicit option `enum = CharacterUnion`. -/
def sEnum : SourceStruct :=
  { sA with attr := { attr0 with enum := some ⟨12, ⟨"CharacterUnion", 13⟩⟩ } }

/-- The double-quote character. -/
def quoteChar : Char := Char.ofNat 34

/-- The characters of the JSON body fragment holding the `query` key up to
the opening quote of its value. -/
def reqKeyChars : List Char :=
  [Char.ofNat 123, quoteChar, 'q', 'u', 'e', 'r', 'y', quoteChar, ':', quoteChar]

/-- The characters closing the JSON body: the value quote and the closing
brace. -/
def reqEndChars : List Char := [quoteChar, Char.ofNat 125]

/-- Modelled from the spec: one concrete instance of the external JSON
decoder, restricted to single-operation bodies whose query string is
quote-free: exactly the complete JSON objects of that shape parse, and any
other document is a parse error, matching the single-operation body shape
described for the adapter. -/
def parseModel (l : List Char) : Except String (GraphQLBatchRequest (List Char)) :=
  if l.take 10 = reqKeyChars ∧ l.drop (l.length - 2) = reqEndChars ∧
      12 ≤ l.length ∧
      ((l.drop 10).take (l.length - 12)).all (fun c => c ≠ quoteChar) then
    .ok (.single ((l.drop 10).take (l.length - 12)))
  else .error "invalid JSON"

/-- The query payload of the oversized-body input. -/
def c10query : List Char := List.replicate 102388 'a'

/-- A complete single-operation JSON body of exactly `BODY_LIMIT`
characters. -/
def c10good : List Char := reqKeyChars ++ (c10query ++ reqEndChars)

/-- The oversized request body: a complete JSON document followed by one
trailing byte beyond the read limit. -/
def c10body : List Char := c10good ++ ['x']


/-- At the first checkpoint: a dirty struct-name stage aborts the pipeline
with exactly its own diagnostics. -/
theorem expand_eq_error_structName {s : SourceStruct}
    (h : structNameDiags s ≠ []) : expand s = .error (structNameDiags s) := by
  simp [expand, h]

/-- At the second checkpoint: with a clean struct-name stage, a dirty field
extraction aborts the pipeline with exactly the field diagnostics. -/
theorem expand_eq_error_fieldDiags {s : SourceStruct}
    (h1 : structNameDiags s = []) (h2 : fieldDiags s ≠ []) :
    expand s = .error (fieldDiags s) := by
  simp [expand, h1, h2]

/-- At the third checkpoint: with the earlier stages clean, dirty post-pass
checks abort the pipeline with exactly the post-pass diagnostics. -/
theorem expand_eq_error_postPass {s : SourceStruct}
    (h1 : structNameDiags s = []) (h2 : fieldDiags s = [])
    (h3 : postPassDiags s ≠ []) : expand s = .error (postPassDiags s) := by
  simp [expand, h1, h2, h3]

/-- A successful expansion means every stage was clean and the result is the
assembled definition record. -/
theorem expand_eq_ok {s : SourceStruct} {d : Definition}
    (h : expand s = .ok d) :
    structNameDiags s = [] ∧ fieldDiags s = [] ∧ postPassDiags s = [] ∧
    d = expandDef s := by
  by_cases h1 : structNameDiags s = []
  · by_cases h2 : fieldDiags s = []
    · by_cases h3 : postPassDiags s = []
      · refine ⟨h1, h2, h3, ?_⟩
        simp [expand, h1, h2, h3] at h
        exact h.symm
      · rw [expand_eq_error_postPass h1 h2 h3] at h
        exact absurd h (by simp)
    · rw [expand_eq_error_fieldDiags h1 h2] at h
      exact absurd h (by simp)
  · rw [expand_eq_error_structName h1] at h
    exact absurd h (by simp)

/-- An internal interface never raises the struct-level naming diagnostic. -/
theorem structNameDiags_internal {s : SourceStruct}
    (h : s.attr.is_internal = true) : structNameDiags s = [] := by
  simp [structNameDiags, h]

/-- Every diagnostic of every field is collected into the field-extraction
diagnostics. -/
theorem mem_fieldDiags {s : SourceStruct} {f : SourceField} {d : Diag}
    (hmem : f ∈ s.fields) (hd : d ∈ (parse_field f (renamingOf s)).2) :
    d ∈ fieldDiags s := by
  simp only [fieldDiags, fieldResults, List.map_map, List.mem_flatten]
  exact ⟨(parse_field f (renamingOf s)).2, List.mem_map.mpr ⟨f, hmem, rfl⟩, hd⟩

/-- An empty retained-field list has pairwise-different names. -/
theorem all_different_nil : all_different [] = true := by
  simp [all_different]

/-- With no retained fields, the post-pass raises exactly the
empty-interface diagnostic anchored at the struct span. -/
theorem postPassDiags_of_empty {s : SourceStruct}
    (h : retainedFields s = []) :
    postPassDiags s = [⟨s.span, .custom "must have at least one field"⟩] := by
  simp [postPassDiags, h, all_different_nil]

/-- Folding conjunction over a list from any accumulator equals the
accumulator conjoined with `all`. -/
theorem foldl_and_eq_all {α : Type} (p : α → Bool) (l : List α) (a : Bool) :
    l.foldl (fun acc x => acc && p x) a = (a && l.all p) := by
  induction l generalizing a with
  | nil => simp
  | cons x t ih => simp [List.foldl_cons, ih, List.all_cons, Bool.and_assoc]

/-- The batch-response success test agrees with the claim-side reading: the
whole response is ok exactly when every executed operation succeeded. -/
theorem is_ok_eq_specAllSucceeded {Req Resp : Type} (exec : Req → Resp)
    (isOk : Resp → Bool) (b : GraphQLBatchRequest Req) :
    (b.execute exec).is_ok isOk = specAllSucceeded exec isOk b := by
  cases b with
  | single r => rfl
  | batch rs =>
    simp only [GraphQLBatchRequest.execute, GraphQLBatchResponse.is_ok,
      specAllSucceeded, foldl_and_eq_all, Bool.true_and]
    induction rs with
    | nil => rfl
    | cons x t ih => simp [List.all_cons, ih]

/-- C1 counterexample: a struct with a reserved-prefix field (no ignore
marker) and one good field is rejected at the post-extraction checkpoint:
one NamingError is recorded and one field remains, yet no
InterfaceDefinition is returned. -/
theorem c1_counterexample :
    expand sReservedField = Except.error [⟨8, DiagKind.noDoubleUnderscore⟩] ∧
    (retainedFields sReservedField).length = 1 := by decide

/-- C1 (amended): a retained-candidate field whose exposed name begins with
`__` is dropped with exactly one NamingError; every field is still
traversed and all per-field diagnostics are collected, but the pipeline
halts at the checkpoint right after field extraction, so the post-pass
checks do not run and no definition is produced. -/
theorem c1_reserved_field (s : SourceStruct) (f : SourceField) (fid : Ident)
    (fattr : FieldAttr)
    (hclean : structNameDiags s = [])
    (hmem : f ∈ s.fields)
    (hid : f.ident = some fid)
    (hattr : f.attrs = .ok fattr)
    (hig : fattr.ignore = none)
    (hpref : strStartsWith (exposedFieldName fattr fid (renamingOf s)) "__" = true) :
    parse_field f (renamingOf s) =
      (none, [⟨fieldAnchor fattr fid, .noDoubleUnderscore⟩]) ∧
    expand s = .error (fieldDiags s) ∧
    fieldDiags s =
      (s.fields.map (fun g => (parse_field g (renamingOf s)).2)).flatten := by
  have hpf : parse_field f (renamingOf s) =
      (none, [⟨fieldAnchor fattr fid, .noDoubleUnderscore⟩]) := by
    simp [parse_field, hid, hattr, hig, hpref]
  have hmemd : (⟨fieldAnchor fattr fid, .noDoubleUnderscore⟩ : Diag) ∈ fieldDiags s :=
    mem_fieldDiags hmem (by rw [hpf]; exact List.mem_singleton.mpr rfl)
  refine ⟨hpf, expand_eq_error_fieldDiags hclean (List.ne_nil_of_mem hmemd), ?_⟩
  simp only [fieldDiags, fieldResults, List.map_map]
  rfl

/-- C1 witness: the amended behavior at the concrete reserved-prefix-field
struct. -/
theorem c1_witness :
    parse_field fDunder (renamingOf sReservedField) =
      (none, [⟨8, DiagKind.noDoubleUnderscore⟩]) ∧
    expand sReservedField = Except.error (fieldDiags sReservedField) ∧
    fieldDiags sReservedField =
      (sReservedField.fields.map
        (fun g => (parse_field g (renamingOf sReservedField)).2)).flatten :=
  c1_reserved_field sReservedField fDunder ⟨"x", 6⟩
    { fattr0 with name := some ⟨8, "__x"⟩ }
    (by decide) (by decide) (by decide) (by decide) (by decide) (by decide)

/-- C2 counterexample: a struct named `__Foo` (not internal) whose field
would also raise a later-stage diagnostic reports only the struct-level
NamingError: the pipeline does not continue into field extraction, so the
later diagnostic is not collected. -/
theorem c2_counterexample :
    expand sReservedName = Except.error [⟨0, DiagKind.noDoubleUnderscore⟩] ∧
    fieldDiags sReservedName ≠ [] := by decide

/-- C2 (amended): a resolved exposed name starting with `__` while
`is_internal` is unset raises the naming diagnostic, anchored at the
explicit name option if given and at the struct identifier otherwise, and
the pipeline halts at the first checkpoint with exactly that diagnostic
(later-stage diagnostics are not collected); with `is_internal` set no such
diagnostic is raised. -/
theorem c2_reserved_name_check (s : SourceStruct) :
    (s.attr.is_internal = false → strStartsWith (resolvedName s) "__" = true →
      expand s = .error [⟨structNameAnchor s, .noDoubleUnderscore⟩]) ∧
    (∀ n, s.attr.name = some n → structNameAnchor s = n.spanIdent) ∧
    (s.attr.name = none → structNameAnchor s = s.ident.span) ∧
    (s.attr.is_internal = true → structNameDiags s = []) := by
  refine ⟨?_, ?_, ?_, fun h => structNameDiags_internal h⟩
  · intro h1 h2
    have hd : structNameDiags s = [⟨structNameAnchor s, .noDoubleUnderscore⟩] := by
      simp [structNameDiags, h1, h2]
    rw [expand_eq_error_structName (by rw [hd]; exact List.cons_ne_nil _ _), hd]
  · intro n hn; simp [structNameAnchor, hn]
  · intro hn; simp [structNameAnchor, hn]

/-- C2 witness: the amended behavior at concrete structs, covering both
anchors and the internal exemption. -/
theorem c2_witness :
    expand sReservedEmpty = Except.error [⟨0, DiagKind.noDoubleUnderscore⟩] ∧
    structNameAnchor sInternalNamed = 9 ∧
    structNameAnchor sA = 0 ∧
    structNameDiags sInternalNamed = [] :=
  ⟨(c2_reserved_name_check sReservedEmpty).1 (by decide) (by decide),
    (c2_reserved_name_check sInternalNamed).2.1 ⟨9, "__X"⟩ (by decide),
    (c2_reserved_name_check sA).2.2.1 (by decide),
    (c2_reserved_name_check sInternalNamed).2.2.2 (by decide)⟩

/-- C3: with the earlier stages clean, two retained fields resolving to the
same exposed name abort derivation with a diagnostic anchored at the struct
span (not either field); consequently every produced definition has
pairwise-distinct retained field names. -/
theorem c3_duplicate_names (s : SourceStruct) :
    (structNameDiags s = [] → fieldDiags s = [] →
      all_different (retainedFields s) = false →
      expand s =
        .error [⟨s.span, .custom "must have a different name for each field"⟩]) ∧
    (∀ d, expand s = .ok d → (d.fields.map FieldDefinition.name).Nodup) := by
  constructor
  · intro h1 h2 hdiff
    have hne : retainedFields s ≠ [] := by
      intro hnil
      rw [hnil, all_different_nil] at hdiff
      exact absurd hdiff (by simp)
    have hpp : postPassDiags s =
        [⟨s.span, .custom "must have a different name for each field"⟩] := by
      have hie : (retainedFields s).isEmpty = false :=
        List.isEmpty_eq_false.mpr hne
      simp [postPassDiags, hie, hdiff]
    rw [expand_eq_error_postPass h1 h2 (by rw [hpp]; exact List.cons_ne_nil _ _), hpp]
  · intro d h
    obtain ⟨-, -, h3, hd⟩ := expand_eq_ok h
    subst hd
    simp only [postPassDiags, List.append_eq_nil] at h3
    obtain ⟨-, h5⟩ := h3
    cases hq : all_different (retainedFields s) with
    | false => rw [hq] at h5; exact absurd h5 (by simp)
    | true =>
      show ((retainedFields s).map FieldDefinition.name).Nodup
      exact of_decide_eq_true (by simpa [all_different] using hq)

/-- C3 witness: the duplicate-name failure at a concrete struct, and the
distinct-names invariant on a concrete produced definition. -/
theorem c3_witness :
    expand sDup =
      Except.error [⟨1, DiagKind.custom "must have a different name for each field"⟩] ∧
    ((expandDef sA).fields.map FieldDefinition.name).Nodup :=
  ⟨(c3_duplicate_names sDup).1 (by decide) (by decide) (by decide),
    (c3_duplicate_names sA).2 (expandDef sA) (by decide)⟩

/-- C4 counterexample: a struct named `__Empty` with zero fields fails with
the struct-level NamingError only; the EmptyInterfaceError is never
recorded, so validity of the other options does matter. -/
theorem c4_counterexample :
    retainedFields sReservedEmpty = [] ∧
    expand sReservedEmpty = Except.error [⟨0, DiagKind.noDoubleUnderscore⟩] ∧
    (⟨1, DiagKind.custom "must have at least one field"⟩ : Diag) ∉
      [(⟨0, DiagKind.noDoubleUnderscore⟩ : Diag)] := by decide

/-- C4 (amended): zero retained fields always prevent a definition from
being produced; when the earlier stages are clean the failure is the
EmptyInterfaceError, a diagnostic anchored at the struct span. -/
theorem c4_empty_interface (s : SourceStruct)
    (hempty : retainedFields s = []) :
    (∃ ds, expand s = .error ds) ∧
    (structNameDiags s = [] → fieldDiags s = [] →
      expand s = .error [⟨s.span, .custom "must have at least one field"⟩]) := by
  have hpp : postPassDiags s ≠ [] := by
    rw [postPassDiags_of_empty hempty]
    exact List.cons_ne_nil _ _
  constructor
  · by_cases h1 : structNameDiags s = []
    · by_cases h2 : fieldDiags s = []
      · exact ⟨_, expand_eq_error_postPass h1 h2 hpp⟩
      · exact ⟨_, expand_eq_error_fieldDiags h1 h2⟩
    · exact ⟨_, expand_eq_error_structName h1⟩
  · intro h1 h2
    rw [expand_eq_error_postPass h1 h2 hpp, postPassDiags_of_empty hempty]

/-- C4 witness: the empty-interface failure at a concrete zero-field
struct. -/
theorem c4_witness :
    (∃ ds, expand sEmpty = Except.error ds) ∧
    expand sEmpty = Except.error [⟨1, DiagKind.custom "must have at least one field"⟩] := by
  have h := c4_empty_interface sEmpty (by decide)
  exact ⟨h.1, h.2 (by decide) (by decide)⟩

/-- C5: a field whose exposed name begins with `__` is dropped with a
NamingError even when the struct-level `is_internal` option is set: the
per-field check never consults the struct options, and the diagnostic
reaches the reported error set. -/
theorem c5_field_reserved_even_internal (s : SourceStruct) (f : SourceField)
    (fid : Ident) (fattr : FieldAttr)
    (hint : s.attr.is_internal = true)
    (hmem : f ∈ s.fields)
    (hid : f.ident = some fid)
    (hattr : f.attrs = .ok fattr)
    (hig : fattr.ignore = none)
    (hpref : strStartsWith (exposedFieldName fattr fid (renamingOf s)) "__" = true) :
    parse_field f (renamingOf s) =
      (none, [⟨fieldAnchor fattr fid, .noDoubleUnderscore⟩]) ∧
    ∃ ds, expand s = .error ds ∧
      (⟨fieldAnchor fattr fid, .noDoubleUnderscore⟩ : Diag) ∈ ds := by
  have hpf : parse_field f (renamingOf s) =
      (none, [⟨fieldAnchor fattr fid, .noDoubleUnderscore⟩]) := by
    simp [parse_field, hid, hattr, hig, hpref]
  have hmemd : (⟨fieldAnchor fattr fid, .noDoubleUnderscore⟩ : Diag) ∈ fieldDiags s :=
    mem_fieldDiags hmem (by rw [hpf]; exact List.mem_singleton.mpr rfl)
  exact ⟨hpf, fieldDiags s,
    expand_eq_error_fieldDiags (structNameDiags_internal hint)
      (List.ne_nil_of_mem hmemd), hmemd⟩

/-- C5 witness: the reserved-prefix field drop at a concrete internal
struct. -/
theorem c5_witness :
    parse_field fDunder (renamingOf sInternalReservedField) =
      (none, [⟨8, DiagKind.noDoubleUnderscore⟩]) ∧
    ∃ ds, expand sInternalReservedField = Except.error ds ∧
      (⟨8, DiagKind.noDoubleUnderscore⟩ : Diag) ∈ ds :=
  c5_field_reserved_even_internal sInternalReservedField fDunder ⟨"x", 6⟩
    { fattr0 with name := some ⟨8, "__x"⟩ }
    (by decide) (by decide) (by decide) (by decide) (by decide) (by decide)

/-- C6: in every produced definition the context type is the struct-level
`context` option when present; otherwise the first context type declared by
a field argument, scanning retained fields in order; otherwise the unit
type. -/
theorem c6_context_resolution (s : SourceStruct) (d : Definition)
    (h : expand s = .ok d) :
    (∀ c, s.attr.context = some c → d.context = c.inner) ∧
    (s.attr.context = none →
      ∀ t, firstArgContext (retainedFields s) = some t → d.context = t) ∧
    (s.attr.context = none → firstArgContext (retainedFields s) = none →
      d.context = Ty.unit) := by
  obtain ⟨-, -, -, hd⟩ := expand_eq_ok h
  subst hd
  refine ⟨?_, ?_, ?_⟩
  · intro c hc
    simp [expandDef, contextOf, hc, Option.orElse]
  · intro hc t ht
    simp [expandDef, contextOf, hc, ht, Option.orElse]
  · intro hc ht
    simp [expandDef, contextOf, hc, ht, Option.orElse]

/-- C6 witness: context resolution at a concrete struct with an explicit
context and at one with neither source. -/
theorem c6_witness :
    (expandDef sCtx).context = Ty.path "Ctx" ∧
    (expandDef sA).context = Ty.unit :=
  ⟨(c6_context_resolution sCtx (expandDef sCtx) (by decide)).1
      ⟨11, Ty.path "Ctx"⟩ (by decide),
    (c6_context_resolution sA (expandDef sA) (by decide)).2.2
      (by decide) (by decide)⟩

/-- C7: in every produced definition, when the struct-level `enum` option is
absent the synthesized identifiers are `<S>Value` and `<S>ValueEnum` for the
struct identifier `S`; when present with value `C`, the alias is `C`
verbatim and the enum identifier is `<C>Enum`. -/
theorem c7_enum_name_synthesis (s : SourceStruct) (d : Definition)
    (h : expand s = .ok d) :
    (s.attr.enum = none →
      d.enum_alias_ident = s.ident.name ++ "Value" ∧
      d.enum_ident = s.ident.name ++ "ValueEnum") ∧
    (∀ c, s.attr.enum = some c →
      d.enum_alias_ident = c.inner.name ∧
      d.enum_ident = c.inner.name ++ "Enum") := by
  obtain ⟨-, -, -, hd⟩ := expand_eq_ok h
  subst hd
  constructor
  · intro hn
    simp [expandDef, enumAliasIdentOf, enumIdentOf, hn]
  · intro c hc
    simp [expandDef, enumAliasIdentOf, enumIdentOf, hc]

/-- C7 witness: the synthesized names at a concrete struct without the
option and at one with `enum = CharacterUnion`. -/
theorem c7_witness :
    ((expandDef sA).enum_alias_ident = "CharacterValue" ∧
      (expandDef sA).enum_ident = "CharacterValueEnum") ∧
    ((expandDef sEnum).enum_alias_ident = "CharacterUnion" ∧
      (expandDef sEnum).enum_ident = "CharacterUnionEnum") := by
  have h1 := (c7_enum_name_synthesis sA (expandDef sA) (by decide)).1 (by decide)
  have h2 := (c7_enum_name_synthesis sEnum (expandDef sEnum) (by decide)).2
    ⟨12, ⟨"CharacterUnion", 13⟩⟩ (by decide)
  exact ⟨⟨h1.1.trans (by decide), h1.2.trans (by decide)⟩,
    ⟨h2.1.trans (by decide), h2.2.trans (by decide)⟩⟩

/-- C8: the derivation pipeline is deterministic: expanding the same
unchanged source struct twice yields structurally identical results, the
pipeline being a pure function of its input. -/
theorem c8_deterministic (s t : SourceStruct) (h : s = t) :
    expand s = expand t :=
  congrArg expand h

/-- C8 witness: determinism at a concrete struct. -/
theorem c8_witness : expand sA = expand sA :=
  c8_deterministic sA sA rfl

/-- C9: the returned status of an executed request is 200 exactly when every
executed operation succeeded and 400 otherwise; a failing body read yields
status 500; the serialized body is a single object for a single-operation
request and an array for a batch request. -/
theorem c9_status_and_shape {Req Resp : Type} (exec : Req → Resp)
    (isOk : Resp → Bool) (respToJson : Resp → Json)
    (hobj : ∀ r, (respToJson r).isObj = true)
    (req : GraphQLRequest Req)
    (parse : List Char → Except String (GraphQLBatchRequest Req)) (e : String) :
    (GraphQLRequest.execute exec isOk respToJson req).status =
      (if specAllSucceeded exec isOk req.inner then 200 else 400) ∧
    GraphQLRequest.from_data parse true (.error e) = .failure 500 e ∧
    (∀ r0, req.inner = .single r0 →
      (GraphQLRequest.execute exec isOk respToJson req).body.isObj = true) ∧
    (∀ rs, req.inner = .batch rs →
      (GraphQLRequest.execute exec isOk respToJson req).body.isArr = true) := by
  refine ⟨?_, ?_, ?_, ?_⟩
  · simp [GraphQLRequest.execute, is_ok_eq_specAllSucceeded]
  · simp [GraphQLRequest.from_data]
  · intro r0 h0
    simp [GraphQLRequest.execute, h0, GraphQLBatchRequest.execute,
      GraphQLBatchResponse.toJson, hobj]
  · intro rs h0
    simp [GraphQLRequest.execute, h0, GraphQLBatchRequest.execute,
      GraphQLBatchResponse.toJson, Json.isArr]

/-- C9 witness: the status, read-failure, and body-shape contract at
concrete instantiations. -/
theorem c9_witness :
    (GraphQLRequest.execute (fun _ : Nat => true) (fun b => b)
        (fun _ => Json.obj []) ⟨.single 0⟩).status =
      (if specAllSucceeded (fun _ : Nat => true) (fun b => b)
          (GraphQLBatchRequest.single 0) then 200 else 400) ∧
    GraphQLRequest.from_data
      (fun _ => (.error "bad" : Except String (GraphQLBatchRequest Nat))) true
      (.error "io") = .failure 500 "io" ∧
    (GraphQLRequest.execute (fun _ : Nat => true) (fun b => b)
        (fun _ => Json.obj []) ⟨.single 0⟩).body.isObj = true := by
  obtain ⟨h1, h2, h3, -⟩ := c9_status_and_shape (fun _ : Nat => true)
    (fun b => b) (fun _ => Json.obj []) (fun _ => rfl) ⟨.single 0⟩
    (fun _ => (.error "bad" : Except String (GraphQLBatchRequest Nat))) "io"
  exact ⟨h1, h2, h3 0 rfl⟩

/-- C10 (amended): a non-JSON content type is forwarded; the guard reads at
most `BODY_LIMIT` characters of the body and hands exactly that prefix to
the external JSON decoder, so the outcome only depends on the truncated
prefix: a parse failure of the prefix yields status 400 and a parse success
yields a successful guard even when the body exceeds the limit. -/
theorem c10_body_limit {Req : Type}
    (parse : List Char → Except String (GraphQLBatchRequest Req))
    (data : Except String (List Char)) (body : List Char) :
    GraphQLRequest.from_data parse false data = .forward ∧
    GraphQLRequest.from_data parse true (.ok body) =
      GraphQLRequest.from_data parse true (.ok (body.take BODY_LIMIT)) ∧
    (∀ e, parse (body.take BODY_LIMIT) = .error e →
      GraphQLRequest.from_data parse true (.ok body) = .failure 400 e) ∧
    (∀ v, parse (body.take BODY_LIMIT) = .ok v →
      GraphQLRequest.from_data parse true (.ok body) = .success ⟨v⟩) := by
  refine ⟨by simp [GraphQLRequest.from_data], ?_, ?_, ?_⟩
  · simp [GraphQLRequest.from_data, List.take_take, Nat.min_self]
  · intro e he
    simp [GraphQLRequest.from_data, he]
  · intro v hv
    simp [GraphQLRequest.from_data, hv]

/-- C10 witness: forwarding, the 400 parse failure, and the success case at
concrete instantiations. -/
theorem c10_witness :
    GraphQLRequest.from_data
      (fun _ => (Except.error "invalid" : Except String (GraphQLBatchRequest Nat)))
      false (.ok ['a']) = .forward ∧
    GraphQLRequest.from_data
      (fun _ => (Except.error "invalid" : Except String (GraphQLBatchRequest Nat)))
      true (.ok ['a']) = .failure 400 "invalid" ∧
    GraphQLRequest.from_data
      (fun _ => (Except.ok (.single 7) : Except String (GraphQLBatchRequest Nat)))
      true (.ok ['a']) = .success ⟨.single 7⟩ := by
  obtain ⟨h1, -, h3, -⟩ := c10_body_limit
    (fun _ => (Except.error "invalid" : Except String (GraphQLBatchRequest Nat)))
    (.ok ['a']) ['a']
  obtain ⟨-, -, -, h4⟩ := c10_body_limit
    (fun _ => (Except.ok (.single 7) : Except String (GraphQLBatchRequest Nat)))
    (.ok ['a']) ['a']
  exact ⟨h1, h3 "invalid" rfl, h4 (.single 7) rfl⟩

/-- Auxiliary: the length of the oversized-body query payload. -/
theorem c10query_length : c10query.length = 102388 := by
  rw [c10query]; exact List.length_replicate _ _

/-- Auxiliary: the length of the opening fragment. -/
theorem reqKeyChars_length : reqKeyChars.length = 10 := by decide

/-- Auxiliary: the length of the closing fragment. -/
theorem reqEndChars_length : reqEndChars.length = 2 := by decide

/-- Auxiliary: the complete JSON document is exactly as long as the read
limit. -/
theorem c10good_length : c10good.length = 102400 := by
  rw [c10good, List.length_append, List.length_append, c10query_length,
    reqKeyChars_length, reqEndChars_length]

/-- Auxiliary: truncating the oversized body at the limit recovers the
complete JSON document. -/
theorem c10body_take : c10body.take BODY_LIMIT = c10good := by
  have h : BODY_LIMIT = 102400 := by norm_num [BODY_LIMIT]
  rw [c10body, h]
  exact List.take_left' c10good_length

/-- Auxiliary: the complete JSON document parses as a single operation. -/
theorem parseModel_c10good : parseModel c10good = .ok (.single c10query) := by
  have h1 : c10good.take 10 = reqKeyChars := by
    rw [c10good]; exact List.take_left' reqKeyChars_length
  have h2 : c10good.drop (c10good.length - 2) = reqEndChars := by
    rw [c10good_length]
    have hassoc : c10good = (reqKeyChars ++ c10query) ++ reqEndChars := by
      rw [c10good, List.append_assoc]
    rw [hassoc]
    apply List.drop_left'
    rw [List.length_append, reqKeyChars_length, c10query_length]
  have h3 : 12 ≤ c10good.length := by rw [c10good_length]; norm_num
  have h4 : (c10good.drop 10).take (c10good.length - 12) = c10query := by
    have hdrop : c10good.drop 10 = c10query ++ reqEndChars := by
      rw [c10good]; exact List.drop_left' reqKeyChars_length
    rw [hdrop, c10good_length]
    apply List.take_left'
    rw [c10query_length]
  have h5 : (c10query.all (fun c => c ≠ quoteChar)) = true := by
    rw [List.all_eq_true]
    intro x hx
    rw [c10query] at hx
    rw [List.eq_of_mem_replicate hx]
    decide
  simp only [parseModel]
  rw [if_pos ⟨h1, h2, h3, by rw [h4]; exact h5⟩, h4]

/-- Auxiliary: a JSON-typed request whose truncated body prefix parses is a
successful guard outcome. -/
theorem from_data_success_of_parse_ok {Req : Type}
    (parse : List Char → Except String (GraphQLBatchRequest Req))
    (body : List Char) (v : GraphQLBatchRequest Req)
    (h : parse (body.take BODY_LIMIT) = .ok v) :
    GraphQLRequest.from_data parse true (.ok body) = .success ⟨v⟩ := by
  simp [GraphQLRequest.from_data, h]

/-- C10 counterexample: a JSON request body exceeding `BODY_LIMIT` whose
first `BODY_LIMIT` characters form a complete single-operation document is
accepted and executed, not rejected with status 400. -/
theorem c10_counterexample :
    BODY_LIMIT < c10body.length ∧
    GraphQLRequest.from_data parseModel true (.ok c10body) =
      .success ⟨.single c10query⟩ := by
  constructor
  · have h : c10body.length = 102401 := by
      rw [c10body, List.length_append, c10good_length, List.length_singleton]
    rw [h]; norm_num [BODY_LIMIT]
  · apply from_data_success_of_parse_ok
    rw [c10body_take]
    exact parseModel_c10good
